import Mathlib

/-!
Verification of the 2D spatial view of `crates/re_viewer/src/ui/view_2d/ui.rs`:
the viewport zoom/pan state machine (`View2DState`), its layout computation,
scroll reconciliation, and the per-frame hit-testing / hover pipeline of
`view_2d_scrollable`.

Modelling conventions:
* `f32` values are modelled by `ℚ`; the rationals stand for the finite
  floating-point values, making every arithmetic step exact.
* The hit-tester carries *squared* distances throughout.  The source computes
  each candidate's distance as the square root of a squared distance and then
  compares those roots; since the square root is strictly monotone on the
  nonnegative reals, comparing the squared values is equivalent (see
  `sqrt_le_sqrt_iff_of_nonneg` below) and keeps everything rational.
-/

/-- A 2D point/vector with rational coordinates (egui `Pos2` / `Vec2`,
which are `f32` pairs; the two types have identical data). -/
structure V2 where
  x : ℚ
  y : ℚ
deriving DecidableEq

instance : Add V2 := ⟨fun a b => ⟨a.x + b.x, a.y + b.y⟩⟩

instance : Sub V2 := ⟨fun a b => ⟨a.x - b.x, a.y - b.y⟩⟩

/-- `Vec2 * f32` (componentwise by the scalar). -/
instance : HMul V2 ℚ V2 := ⟨fun v s => ⟨v.x * s, v.y * s⟩⟩

/-- `Vec2 / f32` (componentwise by the scalar). -/
instance : HDiv V2 ℚ V2 := ⟨fun v s => ⟨v.x / s, v.y / s⟩⟩

/-- Squared Euclidean distance between two points (`Pos2::distance_sq`). -/
def V2.distSq (a b : V2) : ℚ := (a.x - b.x) ^ 2 + (a.y - b.y) ^ 2

/-- Dot product (`Vec2::dot`). -/
def V2.dot (a b : V2) : ℚ := a.x * b.x + a.y * b.y

/-- `Vec2::is_finite`.  Rationals model only the finite floats, so in this
model the predicate is identically `true`; the corresponding fallback branches
of the source are kept but are unreachable here. -/
def V2.is_finite (_ : V2) : Bool := true

/-- Axis-aligned rectangle given by its min and max corner (`epaint::Rect`). -/
structure Rect where
  min : V2
  max : V2
deriving DecidableEq

/-- `Rect::size` = `max - min`. -/
def Rect.size (r : Rect) : V2 := r.max - r.min

/-- `Rect::left_top` = `min`. -/
def Rect.left_top (r : Rect) : V2 := r.min

/-- `Rect::center`. -/
def Rect.center (r : Rect) : V2 := ⟨(r.min.x + r.max.x) / 2, (r.min.y + r.max.y) / 2⟩

/-- `Rect::height` = `max.y - min.y`. -/
def Rect.height (r : Rect) : ℚ := r.max.y - r.min.y

/-- `Rect::is_positive`: `min.x < max.x && min.y < max.y`. -/
def Rect.is_positive (r : Rect) : Bool :=
  decide (r.min.x < r.max.x) && decide (r.min.y < r.max.y)

/-- `Rect::from_min_size`. -/
def Rect.from_min_size (m size : V2) : Rect := ⟨m, m + size⟩

/-- `Rect::from_min_max`. -/
def Rect.from_min_max (m mx : V2) : Rect := ⟨m, mx⟩

/-- `Rect::union` (componentwise min of mins, max of maxes). -/
def Rect.union (a b : Rect) : Rect :=
  ⟨⟨Min.min a.min.x b.min.x, Min.min a.min.y b.min.y⟩,
   ⟨Max.max a.max.x b.max.x, Max.max a.max.y b.max.y⟩⟩

/-- `Rect::distance_sq_to_pos`: squared Euclidean distance from a point to the
rectangle, `0` if the point is inside. -/
def Rect.distance_sq_to_pos (r : Rect) (p : V2) : ℚ :=
  let dx := if p.x < r.min.x then r.min.x - p.x else if r.max.x < p.x then p.x - r.max.x else 0
  let dy := if p.y < r.min.y then r.min.y - p.y else if r.max.y < p.y then p.y - r.max.y else 0
  dx * dx + dy * dy

/-- `emath::RectTransform`: linearly remaps the rectangle `src` onto `dst`
(the source calls them `from` and `to`; `from` is a Lean keyword). -/
structure RectTransform where
  src : Rect
  dst : Rect

/-- `RectTransform::transform_pos`, via `emath::remap` on each axis:
`to.min + ((p - from.min) / (from.max - from.min)) * (to.max - to.min)`. -/
def RectTransform.transform_pos (t : RectTransform) (p : V2) : V2 :=
  ⟨t.dst.min.x + (p.x - t.src.min.x) / (t.src.max.x - t.src.min.x) * (t.dst.max.x - t.dst.min.x),
   t.dst.min.y + (p.y - t.src.min.y) / (t.src.max.y - t.src.min.y) * (t.dst.max.y - t.dst.min.y)⟩

/-- `RectTransform::transform_rect`: transforms min and max corner. -/
def RectTransform.transform_rect (t : RectTransform) (r : Rect) : Rect :=
  ⟨t.transform_pos r.min, t.transform_pos r.max⟩

/-- Sub-state specific to the Zoom/Scale/Pan engine (ui.rs `ZoomState`). -/
inductive ZoomState where
  | auto : ZoomState
  | scaled (scale : ℚ) (center : V2) (accepting_scroll : Bool) : ZoomState
deriving DecidableEq

/-- The persistent per-view state (ui.rs `View2DState`); `hovered_instance`
plays no role in the state machine and is not carried here. -/
structure View2DState where
  scene_bbox_accum : Rect
  zoom : ZoomState
deriving DecidableEq

/-- `View2DState::desired_size_and_offset` (ui.rs lines 78-108): painter size
and requested scroll offset for the current zoom state. -/
def View2DState.desired_size_and_offset (st : View2DState) (available_size : V2) : V2 × V2 :=
  match st.zoom with
  | .scaled scale center _ =>
      let desired_size := st.scene_bbox_accum.size * scale
      let scroll_offset :=
        (center - st.scene_bbox_accum.left_top) * scale - available_size / (2 : ℚ)
      (desired_size, scroll_offset)
  | .auto =>
      let scene_bbox := if st.scene_bbox_accum.is_positive then st.scene_bbox_accum
                        else Rect.from_min_max ⟨0, 0⟩ ⟨1, 1⟩
      let d1 := scene_bbox.size * (available_size.x / scene_bbox.size.x)
      let d2 := d1 * (min (available_size.y / d1.y) 1)
      if d2.is_finite then (d2, ⟨0, 0⟩) else (available_size, ⟨0, 0⟩)

/-- The per-frame interaction data that `View2DState::update` reads off the
egui `Response` and its input state (ui.rs lines 112-124). -/
structure UpdateInput where
  hovered : Bool
  zoom_delta : ℚ
  rect_height : ℚ
  hover_pos : Option V2
  dragged_primary : Bool
  drag_delta : V2
  double_clicked : Bool

/-- ui.rs lines 119-124: the zoom delta, provided the response is hovered and
the delta is not `1.0`. -/
def hovered_zoom (inp : UpdateInput) : Option ℚ :=
  if inp.hovered = true ∧ inp.zoom_delta ≠ 1 then some inp.zoom_delta else none

/-- The body of the `ZoomState::Scaled` arm of `View2DState::update`
(ui.rs lines 142-184): returns the new `(scale, center, accepting_scroll)`. -/
def update_scaled (inp : UpdateInput) (ui_to_space : RectTransform) (scale0 : ℚ)
    (center0 : V2) : ℚ × V2 × Bool :=
  let zoomed : ℚ × V2 × Bool :=
    match hovered_zoom inp with
    | some input_zoom =>
        let new_scale := scale0 * input_zoom
        let center1 :=
          match inp.hover_pos with
          | some hover_pos =>
              let zoom_loc := ui_to_space.transform_pos hover_pos
              let dist_from_center := zoom_loc - center0
              let shift_in_ui := dist_from_center * (new_scale - scale0)
              let shift_in_space := shift_in_ui / new_scale
              center0 + shift_in_space
          | none => center0
        (new_scale, center1, false)
    | none => (scale0, center0, true)
  if inp.dragged_primary then (zoomed.1, zoomed.2.1 - inp.drag_delta / zoomed.1, false)
  else zoomed

/-- ui.rs lines 187-200: reset `ZoomState` to `Auto` on double-click, or when
the zoomed region is smaller than the available size on both axes.  Both checks
run inside one `if let Scaled` on the current zoom state. -/
def auto_revert (st : View2DState) (inp : UpdateInput) (available_size : V2) : ZoomState :=
  match st.zoom with
  | .auto => .auto
  | .scaled scale center accepting =>
      let z1 : ZoomState := if inp.double_clicked then .auto else .scaled scale center accepting
      if st.scene_bbox_accum.size.x * scale < available_size.x ∧
         st.scene_bbox_accum.size.y * scale < available_size.y then .auto else z1

/-- ui.rs line 130: the initial scale of the `Auto → Scaled` transition,
`response.rect.height() / self.scene_bbox_accum.height()`.  The raw accumulated
bbox is the divisor; no replacement of a degenerate bbox happens here. -/
def auto_to_scaled_init_scale (st : View2DState) (inp : UpdateInput) : ℚ :=
  inp.rect_height / st.scene_bbox_accum.height

/-- The `match self.zoom` part of `View2DState::update` (ui.rs lines 126-185).
The recursive call at line 138 is unfolded once: at that point the zoom state is
`Scaled` (with `accepting_scroll := false`, immediately recomputed by the
`Scaled` arm, which binds it with `..`), so the inner call is the `Scaled` arm
followed by the revert checks of lines 187-200. -/
def update_match (st : View2DState) (inp : UpdateInput) (ui_to_space : RectTransform)
    (available_size : V2) : View2DState :=
  match st.zoom with
  | .auto =>
      match hovered_zoom inp with
      | some input_zoom =>
          if 1 < input_zoom then
            let scale := auto_to_scaled_init_scale st inp
            let center := st.scene_bbox_accum.center
            let t := update_scaled inp ui_to_space scale center
            let st2 : View2DState := ⟨st.scene_bbox_accum, .scaled t.1 t.2.1 t.2.2⟩
            ⟨st2.scene_bbox_accum, auto_revert st2 inp available_size⟩
          else st
      | none => st
  | .scaled scale center _ =>
      let t := update_scaled inp ui_to_space scale center
      ⟨st.scene_bbox_accum, .scaled t.1 t.2.1 t.2.2⟩

/-- `View2DState::update` (ui.rs lines 112-201): the `match` on the zoom state
followed by the reset-to-`Auto` checks. -/
def View2DState.update (st : View2DState) (inp : UpdateInput) (ui_to_space : RectTransform)
    (available_size : V2) : View2DState :=
  let st1 := update_match st inp ui_to_space available_size
  ⟨st1.scene_bbox_accum, auto_revert st1 inp available_size⟩

/-- `View2DState::capture_scroll` (ui.rs lines 205-222): while `Scaled` and
`accepting_scroll`, recompute `center` from the offset the scroll widget
committed to. -/
def View2DState.capture_scroll (st : View2DState) (offset : V2) (available_size : V2) :
    View2DState :=
  match st.zoom with
  | .scaled scale _ accepting =>
      if accepting then
        let center :=
          st.scene_bbox_accum.left_top + (available_size / (2 : ℚ) + offset) / scale
        ⟨st.scene_bbox_accum, .scaled scale center accepting⟩
      else st
  | .auto => st

/-- Screen position at which a scene point is displayed.  `view_2d`
(ui.rs lines 244-263) asks `desired_size_and_offset` for the painter size and
the scroll offset, allocates a painter of that size inside the scroll area, and
builds `ui_from_space = RectTransform::from_to(scene_bbox_accum, response.rect)`
(ui.rs line 374).  Relative to the viewport origin the scroll area shifts its
content left/up by the offset, so a scene point `q` shows at
`ui_from_space(q) - offset`, with the painter rect taken at the content origin.
(The scroll widget may additionally clamp the requested offset, ui.rs
lines 250-251; this is the unclamped request.) -/
def viewport_pos (st : View2DState) (available_size : V2) (q : V2) : V2 :=
  let dso := st.desired_size_and_offset available_size
  let ui_from_space : RectTransform := ⟨st.scene_bbox_accum, Rect.from_min_size ⟨0, 0⟩ dso.1⟩
  ui_from_space.transform_pos q - dso.2

/-- Follows the spec's words, for comparison with the source (§3 invariant):
"a degenerate (zero-area) accumulated bbox is replaced by a unit rectangle
before any size computation". -/
def spec_unit_replace (r : Rect) : Rect :=
  if r.is_positive then r else ⟨⟨0, 0⟩, ⟨1, 1⟩⟩

/-- Follows the spec's words: the `Auto → Scaled` initial scale as it would be
if the degenerate bbox were replaced by the unit rectangle first. -/
def spec_auto_to_scaled_init_scale (st : View2DState) (inp : UpdateInput) : ℚ :=
  inp.rect_height / (spec_unit_replace st.scene_bbox_accum).height

/-- Follows the spec's words: the `Scaled` desired size as it would be if the
degenerate bbox were replaced by the unit rectangle first. -/
def spec_scaled_desired_size (st : View2DState) (scale : ℚ) : V2 :=
  (spec_unit_replace st.scene_bbox_accum).size * scale

/-- Candidate identities: `InstanceIdHash` is an opaque handle, modelled by
`Nat`; `Option.none` stands for the `InstanceIdHash::NONE` sentinel. -/
structure HitAcc where
  closest_dist_sq : ℚ
  closest_id : Option Nat
deriving DecidableEq

/-- ui.rs line 389: `let hover_radius = 5.0;`. -/
def hover_radius : ℚ := 5

/-- ui.rs lines 391-392: the accumulator starts at the hover radius with the
`NONE` sentinel (squared here, see the header note). -/
def init_acc : HitAcc := ⟨hover_radius * hover_radius, none⟩

/-- ui.rs lines 395-400: the `check_hovering` closure — a candidate replaces
the current best exactly when its distance is `<=` the current best. -/
def check_hovering (acc : HitAcc) (i : Nat) (dist_sq : ℚ) : HitAcc :=
  if dist_sq ≤ acc.closest_dist_sq then ⟨dist_sq, some i⟩ else acc

/-- One `check_hovering` call, as a fold step over `(id, squared dist)` pairs. -/
def hit_step (acc : HitAcc) (c : Nat × ℚ) : HitAcc := check_hovering acc c.1 c.2

/-- The fields of ui.rs `Image` that hit-testing and depth reading use.
`tensor_get` models `tensor.get(&[row, col])`, the per-pixel lookup of the
backing tensor (`None` when out of bounds); `w`/`h` are
`tensor.shape[1].size` / `tensor.shape[0].size`. -/
structure Image where
  instance_hash : Nat
  w : ℚ
  h : ℚ
  meter : Option ℚ
  tensor_get : Int → Int → Option ℚ

/-- The fields of `Box2D` that hit-testing uses.  `label_rect` is the
background rectangle of the rendered label as returned by `add_label`
(ui.rs lines 316-355); text layout is an external collaborator, so the
resulting rectangle is carried as data. -/
structure Box2D where
  instance_hash : Nat
  bbox : Rect
  label_rect : Option Rect

/-- The fields of `LineSegments2D` that hit-testing uses. -/
structure LineSegments2D where
  instance_hash : Nat
  points : List V2

/-- The fields of `Point2D` that hit-testing uses; `label_rect` as in
`Box2D`. -/
structure Point2D where
  instance_hash : Nat
  pos : V2
  label_rect : Option Rect

/-- The frame's primitive lists (`Scene2D`), in the order the hit-testing
loops of `view_2d_scrollable` walk them. -/
structure Scene2D where
  images : List Image
  boxes : List Box2D
  line_segments : List LineSegments2D
  points : List Point2D

/-- ui.rs line 427: the image rectangle `[0,0]..[w,h]` transformed to ui
coordinates. -/
def image_rect_in_ui (ui_from_space : RectTransform) (img : Image) : Rect :=
  ui_from_space.transform_rect (Rect.from_min_size ⟨0, 0⟩ ⟨img.w, img.h⟩)

/-- ui.rs lines 459-462: the squared distance fed to `check_hovering` for an
image is the rect distance clamped below by the hover radius
("allow stuff on top of us to \"win\"").  Squaring `dist.at_least(r)` with
`dist = sqrt d` and `0 ≤ r` gives `max d (r * r)`. -/
def image_candidates (ui_from_space : RectTransform) (pointer_pos : V2)
    (imgs : List Image) : List (Nat × ℚ) :=
  imgs.map fun img =>
    (img.instance_hash,
      max ((image_rect_in_ui ui_from_space img).distance_sq_to_pos pointer_pos)
        (hover_radius * hover_radius))

/-- ui.rs lines 520-558: each box feeds its ui-space rect distance, and, when
labelled, additionally the label rect distance (the source's `.abs()` on a
square root is the identity, distances being nonnegative). -/
def box_candidates (ui_from_space : RectTransform) (pointer_pos : V2)
    (boxes : List Box2D) : List (Nat × ℚ) :=
  boxes.flatMap fun b =>
    (b.instance_hash, (ui_from_space.transform_rect b.bbox).distance_sq_to_pos pointer_pos) ::
      (match b.label_rect with
       | some r => [(b.instance_hash, r.distance_sq_to_pos pointer_pos)]
       | none => [])

/-- ui.rs line 591: `bytemuck::cast_slice::<_, [egui::Pos2; 2]>(points)`
reinterprets the point list as the list of disjoint consecutive pairs
`(p0,p1), (p2,p3), …` (the source panics unless the length is even; a trailing
odd point is dropped here). -/
def cast_pairs : List V2 → List (V2 × V2)
  | a :: b :: rest => (a, b) :: cast_pairs rest
  | _ => []

/-- Modelled from the spec: `crate::math::line_segment_distance_sq_to_point_2d`
is not among this file's sources; §4.4 describes it as the point-to-segment
distance, i.e. the distance from `p` to the closest point of the segment
`[a, b]` (squared here). -/
def line_segment_distance_sq_to_point_2d (a b p : V2) : ℚ :=
  let l2 := V2.distSq a b
  if l2 = 0 then V2.distSq a p
  else
    let t := max 0 (min 1 (V2.dot (p - a) (b - a) / l2))
    V2.distSq p (a + (b - a) * t)

/-- ui.rs lines 569, 591-600: minimum squared segment distance, in ui space,
over the disjoint pairs.  `none` models the `f32::INFINITY` start value
surviving when there is no pair: the `check_hovering` call at line 602 then
compares `INFINITY` against a current best that never exceeds the hover
radius, so it never updates the accumulator — modelled by emitting no
candidate. -/
def min_dist_sq_of_segments (ui_from_space : RectTransform) (pointer_pos : V2)
    (points : List V2) : Option ℚ :=
  (cast_pairs points).foldl
    (fun acc ab =>
      let d := line_segment_distance_sq_to_point_2d
        (ui_from_space.transform_pos ab.1) (ui_from_space.transform_pos ab.2) pointer_pos
      match acc with
      | none => some d
      | some m => some (min m d))
    none

/-- ui.rs lines 561-603: one candidate per segment list, carrying the minimum
distance over its pairs. -/
def line_candidates (ui_from_space : RectTransform) (pointer_pos : V2)
    (segs : List LineSegments2D) : List (Nat × ℚ) :=
  segs.flatMap fun s =>
    match min_dist_sq_of_segments ui_from_space pointer_pos s.points with
    | some d => [(s.instance_hash, d)]
    | none => []

/-- ui.rs lines 605-649: for a labelled point the label rect is checked first
(lines 632-644), then the direct distance to the ui-space point position
(lines 646-648). -/
def point_candidates (ui_from_space : RectTransform) (pointer_pos : V2)
    (pts : List Point2D) : List (Nat × ℚ) :=
  pts.flatMap fun p =>
    (match p.label_rect with
     | some r => [(p.instance_hash, r.distance_sq_to_pos pointer_pos)]
     | none => []) ++
    [(p.instance_hash, V2.distSq (ui_from_space.transform_pos p.pos) pointer_pos)]

/-- The candidates of the categories evaluated after the images. -/
def non_image_candidates (ui_from_space : RectTransform) (pointer_pos : V2)
    (sc : Scene2D) : List (Nat × ℚ) :=
  box_candidates ui_from_space pointer_pos sc.boxes ++
    line_candidates ui_from_space pointer_pos sc.line_segments ++
    point_candidates ui_from_space pointer_pos sc.points

/-- All `check_hovering` calls of one frame of `view_2d_scrollable`, in
evaluation order: images, then boxes, then line segments, then points. -/
def scene_candidates (ui_from_space : RectTransform) (pointer_pos : V2)
    (sc : Scene2D) : List (Nat × ℚ) :=
  image_candidates ui_from_space pointer_pos sc.images ++
    non_image_candidates ui_from_space pointer_pos sc

/-- Folding `check_hovering` over a candidate list from the initial
accumulator. -/
def run_hit_test (cs : List (Nat × ℚ)) : HitAcc := cs.foldl hit_step init_acc

/-- The frame's hit-test result: closest squared distance and winning id. -/
def hit_test (ui_from_space : RectTransform) (pointer_pos : V2) (sc : Scene2D) : HitAcc :=
  run_hit_test (scene_candidates ui_from_space pointer_pos sc)

/-- Rust `f32::round`: rounds half away from zero. -/
def round_away (q : ℚ) : Int :=
  if 0 ≤ q then Int.floor (q + 1 / 2) else -Int.floor (-q + 1 / 2)

/-- ui.rs lines 507-516: one depth reading per image carrying a `meter`, when
the tensor lookup at the rounded scene position of the pointer is in bounds;
the reading is `raw_value / meter`. -/
def depths_at_pointer (space_from_ui : RectTransform) (pointer_pos : V2)
    (imgs : List Image) : List ℚ :=
  imgs.filterMap fun img =>
    match img.meter with
    | none => none
    | some meter =>
        let pos_in_image := space_from_ui.transform_pos pointer_pos
        match img.tensor_get (round_away pos_in_image.y) (round_away pos_in_image.x) with
        | some raw_value => some (raw_value / meter)
        | none => none

/-- ui.rs lines 700-704: a depth is published only when exactly one reading
exists; the `f32::INFINITY` sentinel ("no depth") is modelled as `none`. -/
def depth_at_pointer (space_from_ui : RectTransform) (pointer_pos : V2)
    (imgs : List Image) : Option ℚ :=
  match depths_at_pointer space_from_ui pointer_pos imgs with
  | [d] => some d
  | _ => none

/-- Identity remap used for concrete scenarios: equal source and target rect. -/
def id_transform : RectTransform := ⟨⟨⟨0, 0⟩, ⟨100, 100⟩⟩, ⟨⟨0, 0⟩, ⟨100, 100⟩⟩⟩

/-- A box (id 1) and a point (id 2) both at distance 3 from the pointer
`(13, 5)`: the box rect is `(0,0)-(10,10)`, the point sits at `(10, 5)`. -/
def point_box_scene : Scene2D :=
  ⟨[], [⟨1, ⟨⟨0, 0⟩, ⟨10, 10⟩⟩, none⟩], [], [⟨2, ⟨10, 5⟩, none⟩]⟩

/-- An image (id 1) and a box (id 2) with the same rect `(0,0)-(10,10)`, both
at distance 5 from the pointer `(15, 5)`. -/
def box_image_scene : Scene2D :=
  ⟨[⟨1, 10, 10, none, fun _ _ => none⟩], [⟨2, ⟨⟨0, 0⟩, ⟨10, 10⟩⟩, none⟩], [], []⟩

/-- A lone 10×10 image (id 7). -/
def image_only_scene : Scene2D := ⟨[⟨7, 10, 10, none, fun _ _ => none⟩], [], [], []⟩

/-- A 10×10 image whose rect contains the pointer `(5, 5)`. -/
def c7_image : Image := ⟨1, 10, 10, none, fun _ _ => none⟩

/-- Concrete interaction input for the zoom scenario: hovered, zoom delta 2,
pointer at `(140, 50)`, no drag, no double-click. -/
def c2_inp : UpdateInput := ⟨true, 2, 0, some ⟨140, 50⟩, false, ⟨0, 0⟩, false⟩

/-- Concrete `space_from_ui` for the zoom scenario: painter rect
`(0,0)-(200,100)` mapped back onto the scene bbox `(0,0)-(100,50)`. -/
def c2_uts : RectTransform := ⟨⟨⟨0, 0⟩, ⟨200, 100⟩⟩, ⟨⟨0, 0⟩, ⟨100, 50⟩⟩⟩

/-- Concrete interaction input: a double-click and nothing else. -/
def c6_inp : UpdateInput := ⟨false, 1, 0, none, false, ⟨0, 0⟩, true⟩

@[simp] lemma V2.add_x (a b : V2) : (a + b).x = a.x + b.x := rfl

@[simp] lemma V2.add_y (a b : V2) : (a + b).y = a.y + b.y := rfl

@[simp] lemma V2.sub_x (a b : V2) : (a - b).x = a.x - b.x := rfl

@[simp] lemma V2.sub_y (a b : V2) : (a - b).y = a.y - b.y := rfl

@[simp] lemma V2.smul_x (v : V2) (s : ℚ) : (v * s).x = v.x * s := rfl

@[simp] lemma V2.smul_y (v : V2) (s : ℚ) : (v * s).y = v.y * s := rfl

@[simp] lemma V2.sdiv_x (v : V2) (s : ℚ) : (v / s).x = v.x / s := rfl

@[simp] lemma V2.sdiv_y (v : V2) (s : ℚ) : (v / s).y = v.y / s := rfl

@[simp] lemma Rect.size_x (r : Rect) : r.size.x = r.max.x - r.min.x := rfl

@[simp] lemma Rect.size_y (r : Rect) : r.size.y = r.max.y - r.min.y := rfl

lemma is_positive_iff (r : Rect) :
    r.is_positive = true ↔ r.min.x < r.max.x ∧ r.min.y < r.max.y := by
  simp [Rect.is_positive]

/-- Justification for carrying squared distances: on nonnegative reals the
square root preserves and reflects `≤`, so the source's comparisons of square
roots agree with comparisons of the squared values. -/
lemma sqrt_le_sqrt_iff_of_nonneg {a b : ℝ} (hb : 0 ≤ b) :
    Real.sqrt a ≤ Real.sqrt b ↔ a ≤ b :=
  Real.sqrt_le_sqrt_iff hb

/-- Folding candidates that are all strictly farther than the current best
leaves the accumulator unchanged. -/
lemma hit_fold_no_update (cs : List (Nat × ℚ)) (acc : HitAcc)
    (h : ∀ c ∈ cs, acc.closest_dist_sq < c.2) : cs.foldl hit_step acc = acc := by
  induction cs with
  | nil => rfl
  | cons c cs ih =>
      have hc : acc.closest_dist_sq < c.2 := h c (List.mem_cons_self c cs)
      have hstep : hit_step acc c = acc := by
        rw [hit_step, check_hovering, if_neg (not_le.mpr hc)]
      rw [List.foldl_cons, hstep]
      exact ih fun d hd => h d (List.mem_cons_of_mem c hd)

/-- Folding candidates that are all at least the current best distance leaves
the best distance unchanged (ties may still replace the id). -/
lemma hit_fold_dist_const (cs : List (Nat × ℚ)) (acc : HitAcc)
    (h : ∀ c ∈ cs, acc.closest_dist_sq ≤ c.2) :
    (cs.foldl hit_step acc).closest_dist_sq = acc.closest_dist_sq := by
  induction cs generalizing acc with
  | nil => rfl
  | cons c cs ih =>
      rw [List.foldl_cons]
      by_cases hle : c.2 ≤ acc.closest_dist_sq
      · have heq : c.2 = acc.closest_dist_sq :=
          le_antisymm hle (h c (List.mem_cons_self c cs))
        have hstep : hit_step acc c = ⟨c.2, some c.1⟩ := by
          rw [hit_step, check_hovering, if_pos hle]
        rw [hstep, ih ⟨c.2, some c.1⟩ fun d hd => heq ▸ h d (List.mem_cons_of_mem c hd)]
        exact heq
      · have hstep : hit_step acc c = acc := by
          rw [hit_step, check_hovering, if_neg hle]
        rw [hstep]
        exact ih acc fun d hd => h d (List.mem_cons_of_mem c hd)

/-- After a fold, the winning id is either the incoming one or the id of some
candidate in the folded list. -/
lemma hit_fold_id_cases (cs : List (Nat × ℚ)) (acc : HitAcc) :
    (cs.foldl hit_step acc).closest_id = acc.closest_id ∨
      ∃ c ∈ cs, (cs.foldl hit_step acc).closest_id = some c.1 := by
  induction cs generalizing acc with
  | nil => exact Or.inl rfl
  | cons c cs ih =>
      rw [List.foldl_cons]
      rcases ih (hit_step acc c) with h | ⟨d, hd, h⟩
      · by_cases hle : c.2 ≤ acc.closest_dist_sq
        · refine Or.inr ⟨c, List.mem_cons_self c cs, ?_⟩
          rw [h, hit_step, check_hovering, if_pos hle]
        · refine Or.inl ?_
          rw [h, hit_step, check_hovering, if_neg hle]
      · exact Or.inr ⟨d, List.mem_cons_of_mem c hd, h⟩

/-- If some candidate of the list is within the current best distance, the
fold ends with the id of some candidate of the list. -/
lemma hit_fold_update_mem (cs : List (Nat × ℚ)) (acc : HitAcc)
    (h : ∃ c ∈ cs, c.2 ≤ acc.closest_dist_sq) :
    ∃ c ∈ cs, (cs.foldl hit_step acc).closest_id = some c.1 := by
  induction cs generalizing acc with
  | nil => simp at h
  | cons c cs ih =>
      rw [List.foldl_cons]
      by_cases hle : c.2 ≤ acc.closest_dist_sq
      · have hstep : hit_step acc c = ⟨c.2, some c.1⟩ := by
          rw [hit_step, check_hovering, if_pos hle]
        rw [hstep]
        rcases hit_fold_id_cases cs ⟨c.2, some c.1⟩ with h2 | ⟨d, hd, h2⟩
        · exact ⟨c, List.mem_cons_self c cs, by rw [h2]⟩
        · exact ⟨d, List.mem_cons_of_mem c hd, h2⟩
      · have hstep : hit_step acc c = acc := by
          rw [hit_step, check_hovering, if_neg hle]
        rw [hstep]
        rcases h with ⟨d, hd, hdle⟩
        rcases List.mem_cons.mp hd with rfl | hd'
        · exact absurd hdle hle
        · rcases ih acc ⟨d, hd', hdle⟩ with ⟨e, he, h2⟩
          exact ⟨e, List.mem_cons_of_mem c he, h2⟩

/-- Every image candidate's fed distance is at least the (squared) hover
radius, by the clamp of ui.rs line 461. -/
lemma image_candidates_ge (t : RectTransform) (ptr : V2) (imgs : List Image) :
    ∀ c ∈ image_candidates t ptr imgs, hover_radius * hover_radius ≤ c.2 := by
  intro c hc
  rcases List.mem_map.mp hc with ⟨img, _, rfl⟩
  exact le_max_right _ _

/-- The hit test is the fold of the non-image candidates starting from the
accumulator the image loop produced. -/
lemma hit_test_split (t : RectTransform) (ptr : V2) (sc : Scene2D) :
    hit_test t ptr sc = (non_image_candidates t ptr sc).foldl hit_step
      ((image_candidates t ptr sc.images).foldl hit_step init_acc) := by
  rw [hit_test, run_hit_test, scene_candidates, List.foldl_append]


/-- C1: the hit-test accumulator starts with best distance equal to the
hover-radius threshold and the none sentinel id; a candidate replaces the
current best exactly when its distance is less than or equal to the current
best; consequently at equal distances the later-evaluated candidate wins
across the fixed category order — concretely a point beats a box and a box
beats an image at equal distance — and a candidate whose distance exceeds the
threshold is never returned, even if it is the only candidate.  (Squared
distances, see `check_hovering`.) -/
theorem c1_hit_test_accumulator :
    init_acc = ⟨hover_radius * hover_radius, none⟩
    ∧ (∀ acc i d, check_hovering acc i d =
        if d ≤ acc.closest_dist_sq then ⟨d, some i⟩ else acc)
    ∧ (∀ cs i d, d ≤ (run_hit_test cs).closest_dist_sq →
        (run_hit_test (cs ++ [(i, d)])).closest_id = some i)
    ∧ (∀ cs, (∀ c ∈ cs, hover_radius * hover_radius < c.2) →
        (run_hit_test cs).closest_id = none)
    ∧ (hit_test id_transform ⟨13, 5⟩ point_box_scene).closest_id = some 2
    ∧ (hit_test id_transform ⟨15, 5⟩ box_image_scene).closest_id = some 2 := by
  refine ⟨rfl, fun acc i d => rfl, ?_, ?_,
    by norm_num [hit_test, run_hit_test, scene_candidates, non_image_candidates,
      image_candidates, box_candidates, line_candidates, point_candidates, hit_step,
      check_hovering, init_acc, hover_radius, image_rect_in_ui, RectTransform.transform_rect,
      RectTransform.transform_pos, Rect.distance_sq_to_pos, Rect.from_min_size, V2.distSq,
      min_dist_sq_of_segments, cast_pairs, id_transform, point_box_scene],
    by norm_num [hit_test, run_hit_test, scene_candidates, non_image_candidates,
      image_candidates, box_candidates, line_candidates, point_candidates, hit_step,
      check_hovering, init_acc, hover_radius, image_rect_in_ui, RectTransform.transform_rect,
      RectTransform.transform_pos, Rect.distance_sq_to_pos, Rect.from_min_size, V2.distSq,
      min_dist_sq_of_segments, cast_pairs, id_transform, box_image_scene]⟩
  · intro cs i d h
    rw [run_hit_test] at h
    rw [run_hit_test, List.foldl_append]
    show (check_hovering (List.foldl hit_step init_acc cs) i d).closest_id = some i
    unfold check_hovering
    rw [if_pos h]
  · intro cs h
    rw [run_hit_test, hit_fold_no_update cs init_acc h]
    rfl

theorem c1_hit_test_accumulator_witness :
    (run_hit_test ([(7, 9)] ++ [(3, 9)])).closest_id = some 3 :=
  c1_hit_test_accumulator.2.2.1 [(7, 9)] 3 9
    (by norm_num [run_hit_test, hit_step, check_hovering, init_acc, hover_radius])

/-- C10: the distance fed for an image is the rect distance clamped below at
the hover radius; hence any box, line-segment or point candidate within the
hover radius is selected in preference to every image, while an image whose
rect is within the radius (e.g. containing the pointer) is still selected when
no later-category candidate is within the radius. -/
theorem c10_image_distance_clamp :
    (∀ t ptr imgs, image_candidates t ptr imgs = imgs.map fun img =>
        (img.instance_hash,
          max ((image_rect_in_ui t img).distance_sq_to_pos ptr)
            (hover_radius * hover_radius)))
    ∧ (∀ t ptr sc,
        (∃ c ∈ non_image_candidates t ptr sc, c.2 ≤ hover_radius * hover_radius) →
        ∃ c ∈ non_image_candidates t ptr sc, (hit_test t ptr sc).closest_id = some c.1)
    ∧ (∀ t ptr sc,
        (∀ c ∈ non_image_candidates t ptr sc, hover_radius * hover_radius < c.2) →
        (∃ img ∈ sc.images,
          (image_rect_in_ui t img).distance_sq_to_pos ptr ≤ hover_radius * hover_radius) →
        ∃ img ∈ sc.images, (hit_test t ptr sc).closest_id = some img.instance_hash) := by
  refine ⟨fun t ptr imgs => rfl, ?_, ?_⟩
  · intro t ptr sc h
    rw [hit_test_split]
    have hdist : ((image_candidates t ptr sc.images).foldl hit_step init_acc).closest_dist_sq
        = hover_radius * hover_radius :=
      hit_fold_dist_const _ init_acc (image_candidates_ge t ptr sc.images)
    exact hit_fold_update_mem _ _ (hdist ▸ h)
  · intro t ptr sc hfar hnear
    obtain ⟨img, himg, hle⟩ := hnear
    have hdist : ((image_candidates t ptr sc.images).foldl hit_step init_acc).closest_dist_sq
        = hover_radius * hover_radius :=
      hit_fold_dist_const _ init_acc (image_candidates_ge t ptr sc.images)
    have hmem : ∃ c ∈ image_candidates t ptr sc.images, c.2 ≤ init_acc.closest_dist_sq := by
      refine ⟨(img.instance_hash,
        max ((image_rect_in_ui t img).distance_sq_to_pos ptr) (hover_radius * hover_radius)),
        List.mem_map_of_mem _ himg, ?_⟩
      exact max_le hle le_rfl
    obtain ⟨c, hc, hid⟩ := hit_fold_update_mem _ init_acc hmem
    obtain ⟨img2, himg2, rfl⟩ := List.mem_map.mp hc
    have hnone : (non_image_candidates t ptr sc).foldl hit_step
        ((image_candidates t ptr sc.images).foldl hit_step init_acc)
        = (image_candidates t ptr sc.images).foldl hit_step init_acc :=
      hit_fold_no_update _ _ (fun c hc2 => hdist ▸ hfar c hc2)
    refine ⟨img2, himg2, ?_⟩
    rw [hit_test_split, hnone]
    exact hid

theorem c10_image_distance_clamp_witness :
    ∃ img ∈ image_only_scene.images,
      (hit_test id_transform ⟨5, 5⟩ image_only_scene).closest_id = some img.instance_hash :=
  c10_image_distance_clamp.2.2 id_transform ⟨5, 5⟩ image_only_scene
    (by intro c hc; simp [non_image_candidates, image_only_scene, box_candidates,
      line_candidates, point_candidates] at hc)
    ⟨⟨7, 10, 10, none, fun _ _ => none⟩, by simp [image_only_scene],
      by norm_num [image_rect_in_ui, RectTransform.transform_rect, RectTransform.transform_pos,
        Rect.distance_sq_to_pos, Rect.from_min_size, id_transform, hover_radius]⟩

/-- C7 fails for images: with the pointer inside the image rect the Euclidean
rect distance is `0`, but the distance fed to the accumulator is the clamped
hover radius (squared: 25), not `0`. -/
theorem c7_counterexample :
    (image_rect_in_ui id_transform c7_image).distance_sq_to_pos ⟨5, 5⟩ = 0
    ∧ image_candidates id_transform ⟨5, 5⟩ [c7_image] = [(1, 25)]
    ∧ (25 : ℚ) ≠ 0 := by
  norm_num [image_candidates, image_rect_in_ui, RectTransform.transform_rect,
    RectTransform.transform_pos, Rect.distance_sq_to_pos, Rect.from_min_size, id_transform,
    c7_image, hover_radius]

/-- C7 amended: the distances fed to the accumulator are, per category:
images — the Euclidean rect distance clamped below at the hover radius;
boxes — the Euclidean rect distance (0 inside), plus the label rect as an
extra candidate when labelled; line segments — the minimum point-to-segment
distance over the disjoint consecutive point pairs; points — the direct
Euclidean distance, with the label rect checked first as an extra candidate at
the same priority; categories in the fixed order images, boxes, line
segments, points. -/
theorem c7_distance_metrics :
    (∀ t ptr imgs, image_candidates t ptr imgs = imgs.map fun img =>
        (img.instance_hash,
          max ((image_rect_in_ui t img).distance_sq_to_pos ptr)
            (hover_radius * hover_radius)))
    ∧ (∀ t ptr i r, box_candidates t ptr [⟨i, r, none⟩]
        = [(i, (t.transform_rect r).distance_sq_to_pos ptr)])
    ∧ (∀ t ptr i r lr, box_candidates t ptr [⟨i, r, some lr⟩]
        = [(i, (t.transform_rect r).distance_sq_to_pos ptr),
           (i, lr.distance_sq_to_pos ptr)])
    ∧ (∀ t ptr i pts, line_candidates t ptr [⟨i, pts⟩]
        = match min_dist_sq_of_segments t ptr pts with
          | some d => [(i, d)]
          | none => [])
    ∧ (∀ t ptr i p, point_candidates t ptr [⟨i, p, none⟩]
        = [(i, V2.distSq (t.transform_pos p) ptr)])
    ∧ (∀ t ptr i p lr, point_candidates t ptr [⟨i, p, some lr⟩]
        = [(i, lr.distance_sq_to_pos ptr), (i, V2.distSq (t.transform_pos p) ptr)])
    ∧ (∀ t ptr sc, scene_candidates t ptr sc
        = image_candidates t ptr sc.images ++
            (box_candidates t ptr sc.boxes ++ line_candidates t ptr sc.line_segments ++
              point_candidates t ptr sc.points)) := by
  refine ⟨fun t ptr imgs => rfl, fun t ptr i r => rfl, fun t ptr i r lr => rfl,
    ?_, fun t ptr i p => rfl, fun t ptr i p lr => rfl, fun t ptr sc => rfl⟩
  intro t ptr i pts
  cases hm : min_dist_sq_of_segments t ptr pts <;>
    simp [line_candidates, hm]

/-- C8: the published hover record carries a depth value exactly when the
images under the pointer produce exactly one reading; with zero readings or
with two or more, no depth is reported. -/
theorem c8_depth_policy :
    (∀ t ptr imgs, (depth_at_pointer t ptr imgs).isSome = true ↔
        (depths_at_pointer t ptr imgs).length = 1)
    ∧ (∀ t ptr imgs d, depth_at_pointer t ptr imgs = some d ↔
        depths_at_pointer t ptr imgs = [d]) := by
  constructor
  · intro t ptr imgs
    cases h : depths_at_pointer t ptr imgs with
    | nil => simp [depth_at_pointer, h]
    | cons a l =>
        cases l with
        | nil => simp [depth_at_pointer, h]
        | cons b l2 => simp [depth_at_pointer, h]
  · intro t ptr imgs d
    cases h : depths_at_pointer t ptr imgs with
    | nil => simp [depth_at_pointer, h]
    | cons a l =>
        cases l with
        | nil => simp [depth_at_pointer, h]
        | cons b l2 => simp [depth_at_pointer, h]

/-- Extensionality for `V2`: equal iff both components are equal. -/
lemma V2.ext_iff (a b : V2) : a = b ↔ a.x = b.x ∧ a.y = b.y := by
  cases a
  cases b
  simp

/-- In `Scaled` the displayed position of a scene point is
`(q - center) * scale + available_size / 2` (per axis), provided the
accumulated bbox is non-degenerate on both axes. -/
lemma viewport_pos_scaled (bbox : Rect) (scale : ℚ) (center : V2) (acc : Bool)
    (avail q : V2) (hbx : bbox.size.x ≠ 0) (hby : bbox.size.y ≠ 0) :
    viewport_pos ⟨bbox, .scaled scale center acc⟩ avail q
      = ⟨(q.x - center.x) * scale + avail.x / 2, (q.y - center.y) * scale + avail.y / 2⟩ := by
  rw [Rect.size_x] at hbx
  rw [Rect.size_y] at hby
  rw [V2.ext_iff]
  simp only [viewport_pos, View2DState.desired_size_and_offset, RectTransform.transform_pos,
    Rect.from_min_size, Rect.left_top, Rect.size, V2.add_x, V2.add_y, V2.sub_x, V2.sub_y,
    V2.smul_x, V2.smul_y, V2.sdiv_x, V2.sdiv_y]
  constructor
  · field_simp
    ring
  · field_simp
    ring

/-- Pure per-axis algebra of the zoom-toward-cursor correction: shifting the
center by `(q - c) * (ns - s) / ns` keeps `(q - c) * s` invariant, so the
displayed position of `q` is unchanged. -/
lemma zoom_fixed_point_axis (qx cx s ns ax Px : ℚ) (hns : ns ≠ 0)
    (h : (qx - cx) * s + ax / 2 = Px) :
    (qx - (cx + (qx - cx) * (ns - s) / ns)) * ns + ax / 2 = Px := by
  have key : (qx - (cx + (qx - cx) * (ns - s) / ns)) * ns = (qx - cx) * s := by
    field_simp
    ring
  rw [key]
  exact h

/-- C4: in `Scaled{scale, center}` the layout is
`desired_size = scene_bbox_accum.size() * scale` and
`offset = (center - bbox.top_left) * scale - available_size / 2`; concretely,
`Scaled{2, (50,25)}` with bbox `(0,0)-(100,50)` and available size `(100,100)`
yields desired size `(200,100)` and offset `(50,0)`. -/
theorem c4_scaled_layout :
    (∀ (bbox : Rect) (scale : ℚ) (center : V2) (acc : Bool) (avail : V2),
        (View2DState.mk bbox (.scaled scale center acc)).desired_size_and_offset avail
          = (bbox.size * scale, (center - bbox.left_top) * scale - avail / (2 : ℚ)))
    ∧ (View2DState.mk ⟨⟨0, 0⟩, ⟨100, 50⟩⟩ (.scaled 2 ⟨50, 25⟩ true)).desired_size_and_offset
        ⟨100, 100⟩ = (⟨200, 100⟩, ⟨50, 0⟩) := by
  refine ⟨fun bbox scale center acc avail => rfl, ?_⟩
  have hred : (View2DState.mk ⟨⟨0, 0⟩, ⟨100, 50⟩⟩ (.scaled 2 ⟨50, 25⟩ true)).desired_size_and_offset
      ⟨100, 100⟩
      = ((⟨⟨0, 0⟩, ⟨100, 50⟩⟩ : Rect).size * (2 : ℚ),
         ((⟨50, 25⟩ : V2) - (⟨⟨0, 0⟩, ⟨100, 50⟩⟩ : Rect).left_top) * (2 : ℚ)
           - (⟨100, 100⟩ : V2) / (2 : ℚ)) := rfl
  rw [hred, Prod.ext_iff]
  constructor <;> (rw [V2.ext_iff]; constructor) <;> norm_num [Rect.left_top]

/-- C5: in `Scaled` with `accepting_scroll = true` and positive scale, feeding
`capture_scroll` exactly the offset that `desired_size_and_offset` requested
for the same available size recomputes the same `center` (round-trip
identity). -/
theorem c5_capture_scroll_round_trip (bbox : Rect) (scale : ℚ) (center : V2) (avail : V2)
    (hs : 0 < scale) :
    View2DState.capture_scroll ⟨bbox, .scaled scale center true⟩
        ((View2DState.mk bbox (.scaled scale center true)).desired_size_and_offset avail).2 avail
      = ⟨bbox, .scaled scale center true⟩ := by
  have hs0 : scale ≠ 0 := ne_of_gt hs
  have hc : bbox.left_top
      + (avail / (2 : ℚ) + ((center - bbox.left_top) * scale - avail / (2 : ℚ))) / scale
      = center := by
    rw [V2.ext_iff]
    constructor <;>
      simp only [Rect.left_top, V2.add_x, V2.add_y, V2.sub_x, V2.sub_y, V2.smul_x, V2.smul_y,
        V2.sdiv_x, V2.sdiv_y] <;>
      (field_simp; try ring)
  calc View2DState.capture_scroll ⟨bbox, .scaled scale center true⟩
        ((View2DState.mk bbox (.scaled scale center true)).desired_size_and_offset avail).2 avail
      = ⟨bbox, .scaled scale
          (bbox.left_top
            + (avail / (2 : ℚ) + ((center - bbox.left_top) * scale - avail / (2 : ℚ))) / scale)
          true⟩ := rfl
    _ = ⟨bbox, .scaled scale center true⟩ := by rw [hc]

theorem c5_capture_scroll_round_trip_witness :
    View2DState.capture_scroll ⟨⟨⟨0, 0⟩, ⟨100, 50⟩⟩, .scaled 2 ⟨50, 25⟩ true⟩
        ((View2DState.mk ⟨⟨0, 0⟩, ⟨100, 50⟩⟩ (.scaled 2 ⟨50, 25⟩ true)).desired_size_and_offset
          ⟨100, 100⟩).2 ⟨100, 100⟩
      = ⟨⟨⟨0, 0⟩, ⟨100, 50⟩⟩, .scaled 2 ⟨50, 25⟩ true⟩ :=
  c5_capture_scroll_round_trip ⟨⟨0, 0⟩, ⟨100, 50⟩⟩ 2 ⟨50, 25⟩ ⟨100, 100⟩ (by norm_num)

/-- C9 fails: with the degenerate accumulated bbox `(0,0)-(100,0)` (positive
width, zero height, so `is_positive` is false), the `Scaled` branch of the
layout computation reads the raw bbox — desired size `(200, 0)`, not the
unit-replaced `(2, 2)` the spec prescribes — and the `Auto → Scaled`
transition divides the rect height by the raw bbox height `0` instead of the
unit rectangle's height `1`. -/
theorem c9_counterexample :
    Rect.is_positive ⟨⟨0, 0⟩, ⟨100, 0⟩⟩ = false
    ∧ ((View2DState.mk ⟨⟨0, 0⟩, ⟨100, 0⟩⟩ (.scaled 2 ⟨0, 0⟩ true)).desired_size_and_offset
        ⟨100, 100⟩).1 = ⟨200, 0⟩
    ∧ spec_scaled_desired_size ⟨⟨⟨0, 0⟩, ⟨100, 0⟩⟩, .scaled 2 ⟨0, 0⟩ true⟩ 2 = ⟨2, 2⟩
    ∧ ((⟨200, 0⟩ : V2) ≠ ⟨2, 2⟩)
    ∧ Rect.height ⟨⟨0, 0⟩, ⟨100, 0⟩⟩ = 0
    ∧ auto_to_scaled_init_scale ⟨⟨⟨0, 0⟩, ⟨100, 0⟩⟩, .auto⟩
        ⟨true, 2, 100, none, false, ⟨0, 0⟩, false⟩ = 100 / (0 : ℚ)
    ∧ spec_auto_to_scaled_init_scale ⟨⟨⟨0, 0⟩, ⟨100, 0⟩⟩, .auto⟩
        ⟨true, 2, 100, none, false, ⟨0, 0⟩, false⟩ = 100
    ∧ 100 / (0 : ℚ) ≠ 100 := by
  refine ⟨by norm_num [Rect.is_positive], ?_, ?_, by simp [V2.ext_iff], by norm_num [Rect.height],
    by norm_num [auto_to_scaled_init_scale, Rect.height], ?_, by norm_num⟩
  · rw [show ((View2DState.mk ⟨⟨0, 0⟩, ⟨100, 0⟩⟩ (.scaled 2 ⟨0, 0⟩ true)).desired_size_and_offset
        ⟨100, 100⟩).1 = (⟨⟨0, 0⟩, ⟨100, 0⟩⟩ : Rect).size * (2 : ℚ) from rfl]
    rw [V2.ext_iff]
    constructor <;> norm_num
  · rw [V2.ext_iff]
    constructor <;>
      norm_num [spec_scaled_desired_size, spec_unit_replace, Rect.is_positive]
  · norm_num [spec_auto_to_scaled_init_scale, spec_unit_replace, Rect.is_positive, Rect.height]

/-- C9 amended: only the `Auto` branch of the layout computation replaces a
non-positive accumulated bbox by the unit rectangle before dividing by its
dimensions; the `Scaled` branch of the layout reads the raw bbox (performing
no division by bbox dimensions), and the `Auto → Scaled` transition divides
the response height by the raw accumulated-bbox height with no replacement. -/
theorem c9_degenerate_bbox_handling (bbox : Rect) (avail : V2) (st : View2DState)
    (inp : UpdateInput) (hnp : bbox.is_positive = false) :
    (View2DState.mk bbox .auto).desired_size_and_offset avail
      = (View2DState.mk ⟨⟨0, 0⟩, ⟨1, 1⟩⟩ .auto).desired_size_and_offset avail
    ∧ (∀ (b : Rect) (scale : ℚ) (center : V2) (a : Bool) (av : V2),
        (View2DState.mk b (.scaled scale center a)).desired_size_and_offset av
          = (b.size * scale, (center - b.left_top) * scale - av / (2 : ℚ)))
    ∧ auto_to_scaled_init_scale st inp = inp.rect_height / st.scene_bbox_accum.height := by
  refine ⟨?_, fun b scale center a av => rfl, rfl⟩
  have hu : Rect.is_positive ⟨⟨0, 0⟩, ⟨1, 1⟩⟩ = true := by norm_num [Rect.is_positive]
  simp [View2DState.desired_size_and_offset, hnp, hu, Rect.from_min_max]

theorem c9_degenerate_bbox_handling_witness :
    (View2DState.mk ⟨⟨0, 0⟩, ⟨100, 0⟩⟩ .auto).desired_size_and_offset ⟨50, 50⟩
      = (View2DState.mk ⟨⟨0, 0⟩, ⟨1, 1⟩⟩ .auto).desired_size_and_offset ⟨50, 50⟩
    ∧ (∀ (b : Rect) (scale : ℚ) (center : V2) (a : Bool) (av : V2),
        (View2DState.mk b (.scaled scale center a)).desired_size_and_offset av
          = (b.size * scale, (center - b.left_top) * scale - av / (2 : ℚ)))
    ∧ auto_to_scaled_init_scale ⟨⟨⟨0, 0⟩, ⟨100, 0⟩⟩, .auto⟩
          ⟨true, 2, 100, none, false, ⟨0, 0⟩, false⟩
        = (⟨true, 2, 100, none, false, ⟨0, 0⟩, false⟩ : UpdateInput).rect_height
            / (View2DState.mk ⟨⟨0, 0⟩, ⟨100, 0⟩⟩ .auto).scene_bbox_accum.height :=
  c9_degenerate_bbox_handling ⟨⟨0, 0⟩, ⟨100, 0⟩⟩ ⟨50, 50⟩ ⟨⟨⟨0, 0⟩, ⟨100, 0⟩⟩, .auto⟩
    ⟨true, 2, 100, none, false, ⟨0, 0⟩, false⟩ (by norm_num [Rect.is_positive])

/-- C3: for a positive accumulated bbox and positive available size, the
`Auto` layout scales the bbox size so the width exactly fills
`available_size.x` and then scales it down (never up) so the height does not
exceed `available_size.y`; the result preserves the bbox aspect ratio, never
exceeds the available size on either axis, and the offset is zero; concretely
bbox `(0,0)-(100,50)` with available size `(200,200)` yields desired size
`(200,100)` and offset `(0,0)`.  (The non-finite fallback to
`(available_size, 0)` is the unreachable else branch of the same `if` in this
exact-arithmetic model, see `V2.is_finite`.) -/
theorem c3_auto_layout (bbox : Rect) (avail d1 d2 : V2)
    (hd1 : d1 = bbox.size * (avail.x / bbox.size.x))
    (hd2 : d2 = d1 * (min (avail.y / d1.y) 1))
    (hp : bbox.is_positive = true) (hax : 0 < avail.x) (hay : 0 < avail.y) :
    (View2DState.mk bbox .auto).desired_size_and_offset avail = (d2, ⟨0, 0⟩)
    ∧ d2.x ≤ avail.x ∧ d2.y ≤ avail.y
    ∧ d2.y * bbox.size.x = d2.x * bbox.size.y
    ∧ (View2DState.mk ⟨⟨0, 0⟩, ⟨100, 50⟩⟩ .auto).desired_size_and_offset ⟨200, 200⟩
        = (⟨200, 100⟩, ⟨0, 0⟩) := by
  obtain ⟨hx, hy⟩ := (is_positive_iff bbox).mp hp
  have hsx : (0 : ℚ) < bbox.size.x := by rw [Rect.size_x]; linarith
  have hsy : (0 : ℚ) < bbox.size.y := by rw [Rect.size_y]; linarith
  have hbxa : bbox.size.x * (avail.x / bbox.size.x) = avail.x := by
    rw [mul_comm, div_mul_cancel₀ _ (ne_of_gt hsx)]
  subst hd1
  subst hd2
  refine ⟨?_, ?_, ?_, ?_, ?_⟩
  · simp [View2DState.desired_size_and_offset, hp, V2.is_finite]
  · simp only [V2.smul_x]
    rw [hbxa]
    exact mul_le_of_le_one_right hax.le (min_le_right _ _)
  · simp only [V2.smul_y]
    have hDpos : 0 < bbox.size.y * (avail.x / bbox.size.x) :=
      mul_pos hsy (div_pos hax hsx)
    rcases le_total (avail.y / (bbox.size.y * (avail.x / bbox.size.x))) 1 with hm | hm
    · rw [min_eq_left hm]
      have hDval : bbox.size.y * (avail.x / bbox.size.x)
          * (avail.y / (bbox.size.y * (avail.x / bbox.size.x))) = avail.y := by
        rw [mul_comm, div_mul_cancel₀ _ (ne_of_gt hDpos)]
      rw [hDval]
    · rw [min_eq_right hm, mul_one]
      exact (one_le_div hDpos).mp hm
  · simp only [V2.smul_x, V2.smul_y]
    ring
  · have hred : (View2DState.mk ⟨⟨0, 0⟩, ⟨100, 50⟩⟩ .auto).desired_size_and_offset ⟨200, 200⟩
        = ((⟨⟨0, 0⟩, ⟨100, 50⟩⟩ : Rect).size
            * ((200 : ℚ) / (⟨⟨0, 0⟩, ⟨100, 50⟩⟩ : Rect).size.x)
            * (min ((200 : ℚ)
                / ((⟨⟨0, 0⟩, ⟨100, 50⟩⟩ : Rect).size
                    * ((200 : ℚ) / (⟨⟨0, 0⟩, ⟨100, 50⟩⟩ : Rect).size.x)).y) 1),
           ⟨0, 0⟩) := by
      norm_num [View2DState.desired_size_and_offset, Rect.is_positive, V2.is_finite]
    rw [hred, Prod.ext_iff]
    refine ⟨?_, rfl⟩
    rw [V2.ext_iff]
    constructor <;> norm_num [min_def]

theorem c3_auto_layout_witness :
    (View2DState.mk ⟨⟨0, 0⟩, ⟨100, 50⟩⟩ .auto).desired_size_and_offset ⟨200, 200⟩
        = (⟨200, 100⟩, ⟨0, 0⟩)
    ∧ (V2.mk 200 100).x ≤ (V2.mk 200 200).x
    ∧ (V2.mk 200 100).y ≤ (V2.mk 200 200).y
    ∧ (V2.mk 200 100).y * (Rect.mk ⟨0, 0⟩ ⟨100, 50⟩).size.x
        = (V2.mk 200 100).x * (Rect.mk ⟨0, 0⟩ ⟨100, 50⟩).size.y
    ∧ (View2DState.mk ⟨⟨0, 0⟩, ⟨100, 50⟩⟩ .auto).desired_size_and_offset ⟨200, 200⟩
        = (⟨200, 100⟩, ⟨0, 0⟩) :=
  c3_auto_layout ⟨⟨0, 0⟩, ⟨100, 50⟩⟩ ⟨200, 200⟩ ⟨200, 100⟩ ⟨200, 100⟩
    (by rw [V2.ext_iff]; constructor <;> norm_num)
    (by rw [V2.ext_iff]; constructor <;> norm_num [min_def])
    (by norm_num [Rect.is_positive]) (by norm_num) (by norm_num)

/-- C6: from any `Scaled` state, `update` ends in `Auto` exactly when a
double-click occurred or the post-gesture zoomed content size
`scene_bbox_accum.size() * scale` is smaller than the available size on both
axes — regardless of the prior center; otherwise the state remains `Scaled`
with the post-gesture scale, center and `accepting_scroll`. -/
theorem c6_auto_revert_policy (bbox : Rect) (scale : ℚ) (center : V2) (acc : Bool)
    (inp : UpdateInput) (uts : RectTransform) (avail : V2) :
    (((View2DState.mk bbox (.scaled scale center acc)).update inp uts avail).zoom = .auto
      ↔ (inp.double_clicked = true
          ∨ (bbox.size.x * (update_scaled inp uts scale center).1 < avail.x
             ∧ bbox.size.y * (update_scaled inp uts scale center).1 < avail.y)))
    ∧ (¬ (inp.double_clicked = true
          ∨ (bbox.size.x * (update_scaled inp uts scale center).1 < avail.x
             ∧ bbox.size.y * (update_scaled inp uts scale center).1 < avail.y)) →
        ((View2DState.mk bbox (.scaled scale center acc)).update inp uts avail).zoom
          = .scaled (update_scaled inp uts scale center).1
              (update_scaled inp uts scale center).2.1
              (update_scaled inp uts scale center).2.2) := by
  have hred : ((View2DState.mk bbox (.scaled scale center acc)).update inp uts avail).zoom
      = auto_revert ⟨bbox, .scaled (update_scaled inp uts scale center).1
          (update_scaled inp uts scale center).2.1
          (update_scaled inp uts scale center).2.2⟩ inp avail := rfl
  rw [hred]
  by_cases hdc : inp.double_clicked = true <;>
    by_cases hlt : (bbox.size.x * (update_scaled inp uts scale center).1 < avail.x
        ∧ bbox.size.y * (update_scaled inp uts scale center).1 < avail.y) <;>
    simp [auto_revert, hdc, hlt]

theorem c6_auto_revert_policy_witness :
    (((View2DState.mk ⟨⟨0, 0⟩, ⟨100, 50⟩⟩ (.scaled 2 ⟨50, 25⟩ true)).update c6_inp id_transform
        ⟨100, 100⟩).zoom = .auto
      ↔ (c6_inp.double_clicked = true
          ∨ ((Rect.mk ⟨0, 0⟩ ⟨100, 50⟩).size.x * (update_scaled c6_inp id_transform 2 ⟨50, 25⟩).1
               < (V2.mk 100 100).x
             ∧ (Rect.mk ⟨0, 0⟩ ⟨100, 50⟩).size.y * (update_scaled c6_inp id_transform 2 ⟨50, 25⟩).1
               < (V2.mk 100 100).y)))
    ∧ (¬ (c6_inp.double_clicked = true
          ∨ ((Rect.mk ⟨0, 0⟩ ⟨100, 50⟩).size.x * (update_scaled c6_inp id_transform 2 ⟨50, 25⟩).1
               < (V2.mk 100 100).x
             ∧ (Rect.mk ⟨0, 0⟩ ⟨100, 50⟩).size.y * (update_scaled c6_inp id_transform 2 ⟨50, 25⟩).1
               < (V2.mk 100 100).y)) →
        ((View2DState.mk ⟨⟨0, 0⟩, ⟨100, 50⟩⟩ (.scaled 2 ⟨50, 25⟩ true)).update c6_inp id_transform
            ⟨100, 100⟩).zoom
          = .scaled (update_scaled c6_inp id_transform 2 ⟨50, 25⟩).1
              (update_scaled c6_inp id_transform 2 ⟨50, 25⟩).2.1
              (update_scaled c6_inp id_transform 2 ⟨50, 25⟩).2.2) :=
  c6_auto_revert_policy ⟨⟨0, 0⟩, ⟨100, 50⟩⟩ 2 ⟨50, 25⟩ true c6_inp id_transform ⟨100, 100⟩

/-- C2: in `Scaled` with positive scale, a hovered zoom gesture with
`zoom_delta ≠ 1` at pointer position `P` multiplies the scale by the delta and
shifts the center by `(scene_point_at_P - center) * (new_scale - scale) /
new_scale` (ui.rs lines 150-168, with `scene_point_at_P =
ui_to_space.transform_pos P`); consequently the scene point that was displayed
at screen position `P` before the gesture is displayed at `P` after it
(exactly, in this rational model).  Hypotheses: no drag, no double-click, the
accumulated bbox is non-degenerate, and the post-gesture content does not
shrink below the available size (which would auto-revert to `Auto`). -/
theorem c2_zoom_toward_cursor (bbox : Rect) (scale : ℚ) (center : V2) (acc : Bool)
    (inp : UpdateInput) (uts : RectTransform) (avail P : V2)
    (hs : 0 < scale) (hd0 : inp.zoom_delta ≠ 0) (hd1 : inp.zoom_delta ≠ 1)
    (hhov : inp.hovered = true) (hpos : inp.hover_pos = some P)
    (hdrag : inp.dragged_primary = false) (hdc : inp.double_clicked = false)
    (hbx : bbox.size.x ≠ 0) (hby : bbox.size.y ≠ 0)
    (hrev : ¬ (bbox.size.x * (scale * inp.zoom_delta) < avail.x
               ∧ bbox.size.y * (scale * inp.zoom_delta) < avail.y)) :
    (View2DState.mk bbox (.scaled scale center acc)).update inp uts avail
      = ⟨bbox, .scaled (scale * inp.zoom_delta)
          (center + (uts.transform_pos P - center) * (scale * inp.zoom_delta - scale)
            / (scale * inp.zoom_delta)) false⟩
    ∧ (viewport_pos ⟨bbox, .scaled scale center acc⟩ avail (uts.transform_pos P) = P →
        viewport_pos ⟨bbox, .scaled (scale * inp.zoom_delta)
            (center + (uts.transform_pos P - center) * (scale * inp.zoom_delta - scale)
              / (scale * inp.zoom_delta)) false⟩ avail (uts.transform_pos P) = P) := by
  have hts : update_scaled inp uts scale center
      = (scale * inp.zoom_delta,
         center + (uts.transform_pos P - center) * (scale * inp.zoom_delta - scale)
           / (scale * inp.zoom_delta), false) := by
    unfold update_scaled hovered_zoom
    rw [if_pos (⟨hhov, hd1⟩ : inp.hovered = true ∧ inp.zoom_delta ≠ 1), hpos, hdrag]
    rfl
  constructor
  · have hred : (View2DState.mk bbox (.scaled scale center acc)).update inp uts avail
        = ⟨bbox, auto_revert ⟨bbox, .scaled (update_scaled inp uts scale center).1
            (update_scaled inp uts scale center).2.1
            (update_scaled inp uts scale center).2.2⟩ inp avail⟩ := rfl
    rw [hred, hts]
    have har : auto_revert ⟨bbox, .scaled (scale * inp.zoom_delta)
        (center + (uts.transform_pos P - center) * (scale * inp.zoom_delta - scale)
          / (scale * inp.zoom_delta)) false⟩ inp avail
        = .scaled (scale * inp.zoom_delta)
            (center + (uts.transform_pos P - center) * (scale * inp.zoom_delta - scale)
              / (scale * inp.zoom_delta)) false := by
      unfold auto_revert
      rw [hdc]
      exact if_neg hrev
    rw [har]
  · intro h
    have hns : scale * inp.zoom_delta ≠ 0 := mul_ne_zero (ne_of_gt hs) hd0
    rw [viewport_pos_scaled bbox scale center acc avail (uts.transform_pos P) hbx hby,
      V2.ext_iff] at h
    rw [viewport_pos_scaled bbox (scale * inp.zoom_delta)
      (center + (uts.transform_pos P - center) * (scale * inp.zoom_delta - scale)
        / (scale * inp.zoom_delta)) false avail (uts.transform_pos P) hbx hby, V2.ext_iff]
    obtain ⟨h1, h2⟩ := h
    constructor
    · simp only [V2.add_x, V2.sub_x, V2.smul_x, V2.sdiv_x] at h1 ⊢
      exact zoom_fixed_point_axis _ _ _ _ _ _ hns h1
    · simp only [V2.add_y, V2.sub_y, V2.smul_y, V2.sdiv_y] at h2 ⊢
      exact zoom_fixed_point_axis _ _ _ _ _ _ hns h2

theorem c2_zoom_toward_cursor_witness :
    (View2DState.mk ⟨⟨0, 0⟩, ⟨100, 50⟩⟩ (.scaled 2 ⟨50, 25⟩ true)).update c2_inp c2_uts ⟨100, 100⟩
      = ⟨⟨⟨0, 0⟩, ⟨100, 50⟩⟩, .scaled (2 * c2_inp.zoom_delta)
          ((⟨50, 25⟩ : V2) + (c2_uts.transform_pos ⟨140, 50⟩ - ⟨50, 25⟩)
            * (2 * c2_inp.zoom_delta - 2) / (2 * c2_inp.zoom_delta)) false⟩
    ∧ (viewport_pos ⟨⟨⟨0, 0⟩, ⟨100, 50⟩⟩, .scaled 2 ⟨50, 25⟩ true⟩ ⟨100, 100⟩
          (c2_uts.transform_pos ⟨140, 50⟩) = ⟨140, 50⟩ →
        viewport_pos ⟨⟨⟨0, 0⟩, ⟨100, 50⟩⟩, .scaled (2 * c2_inp.zoom_delta)
            ((⟨50, 25⟩ : V2) + (c2_uts.transform_pos ⟨140, 50⟩ - ⟨50, 25⟩)
              * (2 * c2_inp.zoom_delta - 2) / (2 * c2_inp.zoom_delta)) false⟩ ⟨100, 100⟩
          (c2_uts.transform_pos ⟨140, 50⟩) = ⟨140, 50⟩) :=
  c2_zoom_toward_cursor ⟨⟨0, 0⟩, ⟨100, 50⟩⟩ 2 ⟨50, 25⟩ true c2_inp c2_uts ⟨100, 100⟩ ⟨140, 50⟩
    (by norm_num) (by norm_num [c2_inp]) (by norm_num [c2_inp]) rfl rfl rfl rfl
    (by norm_num) (by norm_num) (by norm_num [c2_inp])
